import Mathlib

/-!
Shallow embedding of `src/ai/backend/manager/api/ratelimit.py`: the Redis-backed
sliding-window rate limiter.  The Lua script `_rlim_script` becomes a pure
function on an explicit store state; the aiohttp middleware `rlim_middleware`
becomes a pure function producing either a response or the
`RateLimitExceeded` outcome, threading the store state.
-/

namespace RateLimit

/-- The window length in seconds, `_rlim_window : Final = 60 * 15`. -/
def rlim_window : Nat := 60 * 15

/-- The wrap bound `1e12` tested against the global `__request_id` counter. -/
def counterLimit : Nat := 10 ^ 12

/-- State of the rate-limit Redis database as touched by the script: the global
`__request_id` counter (with 0 standing for an absent key, so that INCR yields
1), one sorted set of (score, member) pairs per key (an absent key is the empty
list), and the TTL currently attached to each key. -/
structure RedisState where
  requestId : Nat
  windows : String → List (Rat × Nat)
  ttl : String → Option Rat

/-- Translation of the Lua script `_rlim_script`: INCR the global request id
and SET it back to 1 once the incremented value reaches 1e12 (the local
variable keeps the pre-reset value); when the key exists, ZREMRANGEBYSCORE
removes the entries scored in [0, now - window]; ZADD inserts the entry scored
`now` whose member is the request id (replacing any entry with the same
member); EXPIRE sets the TTL to `window`; the returned value is the ZCARD of
the key after insertion. -/
def rlim_script (access_key : String) (now window : Rat) (st : RedisState) :
    Nat × RedisState :=
  let request_id := st.requestId + 1
  let counter1 := if counterLimit ≤ request_id then 1 else request_id
  let zs0 := st.windows access_key
  let zs1 := if zs0.isEmpty then zs0
             else zs0.filter (fun e => decide (¬ (0 ≤ e.1 ∧ e.1 ≤ now - window)))
  let zs2 := zs1.filter (fun e => decide (e.2 ≠ request_id)) ++ [(now, request_id)]
  (zs2.length,
   { requestId := counter1
     windows := fun k => if k = access_key then zs2 else st.windows k
     ttl := fun k => if k = access_key then some window else st.ttl k })

/-- An HTTP response: an opaque body standing for the downstream handler's
output, plus the header map. -/
structure Response where
  body : String
  headers : List (String × String)
deriving DecidableEq

/-- Assignment `response.headers[k] = v`: keep at most one entry per name. -/
def setHeader (r : Response) (k v : String) : Response :=
  { r with headers := r.headers.filter (fun p => decide (p.1 ≠ k)) ++ [(k, v)] }

/-- Read a header value by name. -/
def getHeader (r : Response) (k : String) : Option String :=
  ((r.headers.filter (fun p => decide (p.1 = k))).head?).map (fun p => p.2)

/-- Outcome of the middleware: a response, or the raised RateLimitExceeded
exception. -/
inductive MWOutcome where
  | ok (resp : Response)
  | rateLimitExceeded
deriving DecidableEq

/-- The three X-RateLimit headers attached on the authorized path. -/
def setRLHeaders (r : Response) (rate_limit remaining : Int) : Response :=
  setHeader (setHeader (setHeader r ("X-RateLimit-Limit") (toString rate_limit))
    ("X-RateLimit-Remaining") (toString remaining))
    ("X-RateLimit-Window") (toString rlim_window)

/-- Translation of `rlim_middleware`.  The request fields `is_authorized`,
`keypair.rate_limit` and `keypair.access_key` are passed explicitly, and the
downstream handler is represented by the response it would produce.
`script_null` selects the externally-determined case in which the awaited
`redis.execute_script` call yields `None` (that wrapper lives outside this
repository); when it is false the call returns the script's value and the
updated store. -/
def rlim_middleware (st : RedisState) (now : Rat) (is_authorized : Bool)
    (rate_limit : Int) (access_key : String) (script_null : Bool)
    (handler : Response) : MWOutcome × RedisState :=
  if is_authorized then
    let r := rlim_script access_key now (rlim_window : Rat) st
    let ret : Option Nat := if script_null then none else some r.1
    match ret with
    | none => (.ok (setRLHeaders handler rate_limit rate_limit), r.2)
    | some rolling_count =>
        if rate_limit < (rolling_count : Int) then
          (.rateLimitExceeded, r.2)
        else
          (.ok (setRLHeaders handler rate_limit
                  (rate_limit - (rolling_count : Int))), r.2)
  else
    (.ok (setHeader (setHeader (setHeader handler ("X-RateLimit-Limit") ("1000"))
        ("X-RateLimit-Remaining") ("1000"))
        ("X-RateLimit-Window") (toString rlim_window)), st)

/-- Store state after n successive executions of the script for one key, the
k-th at time `t k`, with the window argument the middleware passes. -/
def scriptIter (access_key : String) (t : Nat → Rat) (st : RedisState) :
    Nat → RedisState
  | 0 => st
  | n + 1 =>
      (rlim_script access_key (t n) (rlim_window : Rat)
        (scriptIter access_key t st n)).2

/-- Rolling count returned by the (n+1)-st successive execution of the script. -/
def scriptRet (access_key : String) (t : Nat → Rat) (st : RedisState)
    (n : Nat) : Nat :=
  (rlim_script access_key (t n) (rlim_window : Rat)
    (scriptIter access_key t st n)).1

/-- Evolution of the stored global counter across one script execution. -/
def counterStep (c : Nat) : Nat :=
  if counterLimit ≤ c + 1 then 1 else c + 1

/-- Closed form for the stored counter after n executions starting from c. -/
def cClosed (c n : Nat) : Nat :=
  if n < counterLimit - c then c + n
  else 1 + (n - (counterLimit - c)) % (counterLimit - 1)

/-- Store state after n successive authorized middleware calls for one identity
(with the script call returning its value, not None). -/
def mwIter (access_key : String) (rate_limit : Int) (t : Nat → Rat)
    (handler : Response) (st : RedisState) : Nat → RedisState
  | 0 => st
  | n + 1 =>
      (rlim_middleware (mwIter access_key rate_limit t handler st n) (t n)
        true rate_limit access_key false handler).2

/-- Outcome of the (n+1)-st successive authorized middleware call. -/
def mwOut (access_key : String) (rate_limit : Int) (t : Nat → Rat)
    (handler : Response) (st : RedisState) (n : Nat) : MWOutcome :=
  (rlim_middleware (mwIter access_key rate_limit t handler st n) (t n)
    true rate_limit access_key false handler).1

/-- A fresh store: no global counter yet, no window keys, no TTLs. -/
def emptySt : RedisState :=
  { requestId := 0, windows := fun _ => [], ttl := fun _ => none }

/-- A store holding one stale entry for the sample identity. -/
def stOld : RedisState :=
  { requestId := 5, windows := fun _ => [((50 : Rat), 7)], ttl := fun _ => none }

/-- A store whose global counter is one increment away from the 1e12 wrap. -/
def stWrap : RedisState :=
  { requestId := counterLimit - 1, windows := fun _ => [], ttl := fun _ => none }

/-- A sample access key. -/
def key0 : String := "AKIASAMPLE"

/-- A constant request-time sequence (all calls in the same window). -/
def tConst : Nat → Rat := fun _ => 1000

/-- A sample downstream response. -/
def handler0 : Response := { body := "payload", headers := [] }

-- Basic computation lemmas about the script.

theorem rlim_script_requestId (access_key : String) (now window : Rat)
    (st : RedisState) :
    (rlim_script access_key now window st).2.requestId
      = counterStep st.requestId := by
  rfl

theorem rlim_script_ttl (access_key : String) (now window : Rat)
    (st : RedisState) :
    (rlim_script access_key now window st).2.ttl access_key = some window := by
  simp [rlim_script]

theorem rlim_script_inserts (access_key : String) (now window : Rat)
    (st : RedisState) :
    (now, st.requestId + 1)
      ∈ (rlim_script access_key now window st).2.windows access_key := by
  simp [rlim_script]

theorem getHeader_setHeader_same (r : Response) (k v : String) :
    getHeader (setHeader r k v) k = some v := by
  simp [getHeader, setHeader, List.filter_append]

theorem getHeader_setHeader_ne (r : Response) (k k' v : String) (h : k ≠ k') :
    getHeader (setHeader r k' v) k = getHeader r k := by
  unfold getHeader setHeader
  rw [List.filter_append]
  have h1 : List.filter (fun p => decide (p.1 = k)) [(k', v)] = [] := by
    simp [Ne.symm h]
  rw [h1, List.append_nil, List.filter_filter]
  congr 2
  apply List.filter_congr
  intro p hp
  by_cases hk : p.1 = k
  · simp [hk, h]
  · simp [hk]

theorem getHeader_setRLHeaders_limit (r : Response) (a b : Int) :
    getHeader (setRLHeaders r a b) ("X-RateLimit-Limit") = some (toString a) := by
  rw [setRLHeaders, getHeader_setHeader_ne, getHeader_setHeader_ne,
    getHeader_setHeader_same] <;> decide

theorem getHeader_setRLHeaders_remaining (r : Response) (a b : Int) :
    getHeader (setRLHeaders r a b) ("X-RateLimit-Remaining")
      = some (toString b) := by
  rw [setRLHeaders, getHeader_setHeader_ne, getHeader_setHeader_same]
  decide

theorem getHeader_setRLHeaders_window (r : Response) (a b : Int) :
    getHeader (setRLHeaders r a b) ("X-RateLimit-Window") = some ("900") := by
  rw [setRLHeaders, getHeader_setHeader_same]
  rfl

theorem counterLimit_two_le : 2 ≤ counterLimit := by
  norm_num [counterLimit]

theorem counterLimit_three_le : 3 ≤ counterLimit := by
  norm_num [counterLimit]

theorem rlim_window_rat : ((rlim_window : Nat) : Rat) = 900 := by
  norm_num [rlim_window]

theorem counterStep_lt (c : Nat) : counterStep c < counterLimit := by
  have hN := counterLimit_two_le
  unfold counterStep
  split <;> omega

theorem scriptIter_requestId (access_key : String) (t : Nat → Rat)
    (st : RedisState) : ∀ n,
    (scriptIter access_key t st n).requestId = counterStep^[n] st.requestId := by
  intro n
  induction n with
  | zero => rfl
  | succ n ih =>
      simp only [scriptIter]
      rw [rlim_script_requestId, ih, Function.iterate_succ_apply']

theorem counterStep_cClosed (c : Nat) (hc : c < counterLimit) (n : Nat) :
    counterStep^[n] c = cClosed c n := by
  have hN := counterLimit_three_le
  induction n with
  | zero =>
      have h0 : 0 < counterLimit - c := Nat.sub_pos_of_lt hc
      simp [cClosed, h0]
  | succ n ih =>
      rw [Function.iterate_succ_apply', ih]
      have hq : 0 < counterLimit - 1 := by omega
      by_cases h2 : n < counterLimit - c
      · have hval : cClosed c n = c + n := by
          simp only [cClosed]
          rw [if_pos h2]
        by_cases h1 : n + 1 < counterLimit - c
        · have hval2 : cClosed c (n + 1) = c + (n + 1) := by
            simp only [cClosed]
            rw [if_pos h1]
          rw [hval, hval2]
          simp only [counterStep]
          rw [if_neg (by omega)]
          omega
        · have he : n + 1 = counterLimit - c := by omega
          have hval2 : cClosed c (n + 1) = 1 := by
            simp only [cClosed]
            rw [if_neg h1, he, Nat.sub_self, Nat.zero_mod]
          rw [hval, hval2]
          simp only [counterStep]
          rw [if_pos (by omega)]
      · have hqm : (n - (counterLimit - c)) % (counterLimit - 1)
            < counterLimit - 1 := Nat.mod_lt _ hq
        have hval : cClosed c n
            = 1 + (n - (counterLimit - c)) % (counterLimit - 1) := by
          simp only [cClosed]
          rw [if_neg h2]
        have hm1 : n + 1 - (counterLimit - c)
            = (n - (counterLimit - c)) + 1 := by omega
        have hval2 : cClosed c (n + 1)
            = 1 + ((n - (counterLimit - c)) + 1) % (counterLimit - 1) := by
          simp only [cClosed]
          rw [if_neg (by omega : ¬ (n + 1 < counterLimit - c)), hm1]
        rw [hval, hval2]
        simp only [counterStep]
        have h1q : (1 : Nat) % (counterLimit - 1) = 1 :=
          Nat.mod_eq_of_lt (by omega)
        by_cases h3 : (n - (counterLimit - c)) % (counterLimit - 1)
            = counterLimit - 2
        · have hmod : ((n - (counterLimit - c)) + 1) % (counterLimit - 1)
              = 0 := by
            rw [Nat.add_mod, h3, h1q]
            have hf : counterLimit - 2 + 1 = counterLimit - 1 := by omega
            rw [hf, Nat.mod_self]
          rw [hmod, if_pos (by omega)]
        · have hmod : ((n - (counterLimit - c)) + 1) % (counterLimit - 1)
              = (n - (counterLimit - c)) % (counterLimit - 1) + 1 := by
            rw [Nat.add_mod, h1q]
            exact Nat.mod_eq_of_lt (by omega)
          rw [hmod, if_neg (by omega)]
          omega

theorem cClosed_ne (c k₁ k₂ : Nat) (hc : c < counterLimit) (h12 : k₁ < k₂)
    (hspan : k₂ - k₁ < counterLimit - 1) : cClosed c k₁ ≠ cClosed c k₂ := by
  have hN := counterLimit_two_le
  simp only [cClosed]
  by_cases hA : k₂ < counterLimit - c
  · rw [if_pos (by omega), if_pos hA]
    omega
  · by_cases hB : k₁ < counterLimit - c
    · rw [if_pos hB, if_neg hA]
      have hm : k₂ - (counterLimit - c) < counterLimit - 1 := by omega
      rw [Nat.mod_eq_of_lt hm]
      omega
    · rw [if_neg hB, if_neg hA]
      intro hEq
      have hq : 0 < counterLimit - 1 := by omega
      have hmod : Nat.ModEq (counterLimit - 1) (k₁ - (counterLimit - c))
          (k₂ - (counterLimit - c)) := by
        unfold Nat.ModEq
        omega
      have hle : k₁ - (counterLimit - c) ≤ k₂ - (counterLimit - c) := by omega
      have hdvd := (Nat.modEq_iff_dvd' hle).mp hmod
      have hsub : (k₂ - (counterLimit - c)) - (k₁ - (counterLimit - c))
          = k₂ - k₁ := by omega
      rw [hsub] at hdvd
      have := Nat.le_of_dvd (by omega) hdvd
      omega

theorem rlim_script_windows (access_key : String) (now window : Rat)
    (st : RedisState) :
    (rlim_script access_key now window st).2.windows access_key
      = (if (st.windows access_key).isEmpty then st.windows access_key
         else (st.windows access_key).filter
           (fun e => decide (¬ (0 ≤ e.1 ∧ e.1 ≤ now - window)))).filter
             (fun e => decide (e.2 ≠ st.requestId + 1))
        ++ [(now, st.requestId + 1)] := by
  simp [rlim_script]

theorem scriptRet_eq_length (access_key : String) (t : Nat → Rat)
    (st : RedisState) (n : Nat) :
    scriptRet access_key t st n
      = ((scriptIter access_key t st (n + 1)).windows access_key).length := by
  simp [scriptRet, scriptIter, rlim_script]

theorem scriptIter_windows (access_key : String) (t : Nat → Rat)
    (st : RedisState) (Nn : Nat) (h0 : st.windows access_key = [])
    (hc : st.requestId < counterLimit) (hN : Nn ≤ counterLimit - 1)
    (hwin : ∀ i j : Nat, i < j → j < Nn → t j - 900 < t i) :
    ∀ k, k ≤ Nn → (scriptIter access_key t st k).windows access_key
      = (List.range k).map (fun i => (t i, cClosed st.requestId i + 1)) := by
  have hN3 := counterLimit_three_le
  intro k
  induction k with
  | zero =>
      intro _
      simpa [scriptIter] using h0
  | succ k ih =>
      intro hk1
      have hk : k ≤ Nn := by omega
      have hkN : k < Nn := by omega
      have hw := ih hk
      have hid : (scriptIter access_key t st k).requestId
          = cClosed st.requestId k := by
        rw [scriptIter_requestId, counterStep_cClosed _ hc]
      rw [show scriptIter access_key t st (k + 1)
            = (rlim_script access_key (t k) (rlim_window : Rat)
                (scriptIter access_key t st k)).2 from rfl]
      rw [rlim_script_windows, hw, hid, rlim_window_rat]
      have hprune :
          (if ((List.range k).map
                (fun i => (t i, cClosed st.requestId i + 1))).isEmpty
           then (List.range k).map (fun i => (t i, cClosed st.requestId i + 1))
           else ((List.range k).map
                (fun i => (t i, cClosed st.requestId i + 1))).filter
             (fun e => decide (¬ (0 ≤ e.1 ∧ e.1 ≤ t k - 900))))
          = (List.range k).map (fun i => (t i, cClosed st.requestId i + 1)) := by
        split
        · rfl
        · apply List.filter_eq_self.mpr
          intro e he
          rcases List.mem_map.mp he with ⟨i, hi, hei⟩
          have hik : i < k := List.mem_range.mp hi
          subst hei
          simp only [decide_eq_true_eq]
          intro hcon
          exact absurd hcon.2 (not_le.mpr (hwin i k hik hkN))
      rw [hprune]
      have hmem :
          ((List.range k).map
              (fun i => (t i, cClosed st.requestId i + 1))).filter
            (fun e => decide (e.2 ≠ cClosed st.requestId k + 1))
          = (List.range k).map (fun i => (t i, cClosed st.requestId i + 1)) := by
        apply List.filter_eq_self.mpr
        intro e he
        rcases List.mem_map.mp he with ⟨i, hi, hei⟩
        have hik : i < k := List.mem_range.mp hi
        subst hei
        simp only [decide_eq_true_eq]
        intro hcon
        exact cClosed_ne st.requestId i k hc hik (by omega)
          (by simpa using hcon)
      rw [hmem, List.range_succ, List.map_append]
      rfl

theorem scriptRet_run (access_key : String) (t : Nat → Rat)
    (st : RedisState) (Nn : Nat) (h0 : st.windows access_key = [])
    (hc : st.requestId < counterLimit) (hN : Nn ≤ counterLimit - 1)
    (hwin : ∀ i j : Nat, i < j → j < Nn → t j - 900 < t i) :
    ∀ k, k < Nn → scriptRet access_key t st k = k + 1 := by
  intro k hk
  rw [scriptRet_eq_length,
    scriptIter_windows access_key t st Nn h0 hc hN hwin (k + 1) (by omega)]
  simp

theorem rlim_middleware_auth (st : RedisState) (now : Rat) (q : Int)
    (access_key : String) (handler : Response) :
    rlim_middleware st now true q access_key false handler
      = (if q < ((rlim_script access_key now (rlim_window : Rat) st).1 : Int)
         then MWOutcome.rateLimitExceeded
         else MWOutcome.ok (setRLHeaders handler q
                (q - ((rlim_script access_key now (rlim_window : Rat) st).1 : Int))),
         (rlim_script access_key now (rlim_window : Rat) st).2) := by
  by_cases hq : q < ((rlim_script access_key now (rlim_window : Rat) st).1 : Int)
  · simp [rlim_middleware, hq]
  · simp [rlim_middleware, hq]

theorem mwIter_eq_scriptIter (access_key : String) (q : Int) (t : Nat → Rat)
    (handler : Response) (st : RedisState) : ∀ n,
    mwIter access_key q t handler st n = scriptIter access_key t st n := by
  intro n
  induction n with
  | zero => rfl
  | succ n ih =>
      simp only [mwIter, ih, rlim_middleware_auth, scriptIter]

theorem mwOut_eq (access_key : String) (q : Int) (t : Nat → Rat)
    (handler : Response) (st : RedisState) (n : Nat) :
    mwOut access_key q t handler st n
      = if q < (scriptRet access_key t st n : Int)
        then MWOutcome.rateLimitExceeded
        else MWOutcome.ok (setRLHeaders handler q
              (q - (scriptRet access_key t st n : Int))) := by
  unfold mwOut
  rw [mwIter_eq_scriptIter, rlim_middleware_auth]
  rfl

/-- Claim C5: the global request counter is incremented on every admission
check (the entry inserted by the script carries member value
`requestId + 1`); when the incremented result reaches 1e12 the stored counter
is reset to 1, and the next caller's id continues from the reset value 1
(that caller's INCR yields 2). -/
theorem claim_C5 (st : RedisState) (access_key access_key' : String)
    (now now' window window' : Rat) :
    ((now, st.requestId + 1)
        ∈ (rlim_script access_key now window st).2.windows access_key)
    ∧ ((rlim_script access_key now window st).2.requestId
        = if counterLimit ≤ st.requestId + 1 then 1 else st.requestId + 1)
    ∧ (counterLimit ≤ st.requestId + 1 →
        (rlim_script access_key now window st).2.requestId = 1
        ∧ ((now', (rlim_script access_key now window st).2.requestId + 1)
            ∈ (rlim_script access_key' now' window'
                (rlim_script access_key now window st).2).2.windows access_key')
        ∧ (rlim_script access_key now window st).2.requestId + 1 = 2) := by
  have hid : (rlim_script access_key now window st).2.requestId
      = if counterLimit ≤ st.requestId + 1 then 1 else st.requestId + 1 := by
    rw [rlim_script_requestId]
    rfl
  refine ⟨rlim_script_inserts access_key now window st, hid, ?_⟩
  intro hwrap
  have h1 : (rlim_script access_key now window st).2.requestId = 1 := by
    rw [hid, if_pos hwrap]
  exact ⟨h1, rlim_script_inserts access_key' now' window' _, by rw [h1]⟩

/-- Witness for claim C5 at the wraparound state: the counter is one
increment away from 1e12, the hypothesis of the wrap clause holds, the stored
counter resets to 1 and the following call inserts member value 2. -/
theorem claim_C5_witness :
    (counterLimit ≤ stWrap.requestId + 1)
    ∧ ((rlim_script key0 1000 900 stWrap).2.requestId = 1
        ∧ ((1001, (rlim_script key0 1000 900 stWrap).2.requestId + 1)
            ∈ (rlim_script key0 1001 900
                (rlim_script key0 1000 900 stWrap).2).2.windows key0)
        ∧ (rlim_script key0 1000 900 stWrap).2.requestId + 1 = 2) := by
  have hN := counterLimit_two_le
  have hwrap : counterLimit ≤ stWrap.requestId + 1 := by
    show counterLimit ≤ counterLimit - 1 + 1
    omega
  exact ⟨hwrap, (claim_C5 stWrap key0 key0 1000 1001 900 900).2.2 hwrap⟩

/-- Claim C6: two admission checks inside a span shorter than the counter's
cycle (1e12 − 1 calls, which covers any realistic short time span and in
particular wraparound-straddling and same-millisecond pairs) insert entries
with distinct member values: the script at step k inserts member value
`requestId + 1` of the pre-state, and those values differ for k₁ ≠ k₂. -/
theorem claim_C6 (st : RedisState) (access_key : String) (t : Nat → Rat)
    (k₁ k₂ : Nat) (hc : st.requestId < counterLimit) (h12 : k₁ < k₂)
    (hspan : k₂ - k₁ < counterLimit - 1) :
    ((t k₁, (scriptIter access_key t st k₁).requestId + 1)
        ∈ (rlim_script access_key (t k₁) (rlim_window : Rat)
            (scriptIter access_key t st k₁)).2.windows access_key)
    ∧ ((t k₂, (scriptIter access_key t st k₂).requestId + 1)
        ∈ (rlim_script access_key (t k₂) (rlim_window : Rat)
            (scriptIter access_key t st k₂)).2.windows access_key)
    ∧ (scriptIter access_key t st k₁).requestId + 1
        ≠ (scriptIter access_key t st k₂).requestId + 1 := by
  refine ⟨rlim_script_inserts _ _ _ _, rlim_script_inserts _ _ _ _, ?_⟩
  rw [scriptIter_requestId, scriptIter_requestId,
    counterStep_cClosed _ hc, counterStep_cClosed _ hc]
  have := cClosed_ne st.requestId k₁ k₂ hc h12 hspan
  omega

/-- Witness for claim C6 straddling the 1e12 wraparound: from the state one
increment before the wrap, call 0 inserts member 1e12 and call 1 inserts
member 2, and the two member values are distinct. -/
theorem claim_C6_witness :
    (stWrap.requestId < counterLimit ∧ 0 < 1
      ∧ 1 - 0 < counterLimit - 1)
    ∧ (((tConst 0, (scriptIter key0 tConst stWrap 0).requestId + 1)
        ∈ (rlim_script key0 (tConst 0) (rlim_window : Rat)
            (scriptIter key0 tConst stWrap 0)).2.windows key0)
    ∧ ((tConst 1, (scriptIter key0 tConst stWrap 1).requestId + 1)
        ∈ (rlim_script key0 (tConst 1) (rlim_window : Rat)
            (scriptIter key0 tConst stWrap 1)).2.windows key0)
    ∧ (scriptIter key0 tConst stWrap 0).requestId + 1
        ≠ (scriptIter key0 tConst stWrap 1).requestId + 1) := by
  have hN := counterLimit_three_le
  have hc : stWrap.requestId < counterLimit := by
    show counterLimit - 1 < counterLimit
    omega
  have h12 : (0 : Nat) < 1 := by omega
  have hspan : 1 - 0 < counterLimit - 1 := by omega
  exact ⟨⟨hc, h12, hspan⟩, claim_C6 stWrap key0 tConst 0 1 hc h12 hspan⟩

/-- Claim C7: an unauthenticated request leaves the store untouched, the
downstream handler's response is returned with exactly the fixed headers
Limit = 1000, Remaining = 1000, Window = 900, independent of any prior
history in the store. -/
theorem claim_C7 (st : RedisState) (now : Rat) (rate_limit : Int)
    (access_key : String) (script_null : Bool) (handler : Response) :
    rlim_middleware st now false rate_limit access_key script_null handler
      = (MWOutcome.ok (setHeader (setHeader (setHeader handler
            ("X-RateLimit-Limit") ("1000")) ("X-RateLimit-Remaining") ("1000"))
            ("X-RateLimit-Window") (toString rlim_window)), st)
    ∧ (∀ k, (rlim_middleware st now false rate_limit access_key script_null
          handler).2.windows k = st.windows k)
    ∧ getHeader (setHeader (setHeader (setHeader handler
          ("X-RateLimit-Limit") ("1000")) ("X-RateLimit-Remaining") ("1000"))
          ("X-RateLimit-Window") (toString rlim_window)) ("X-RateLimit-Limit")
        = some ("1000")
    ∧ getHeader (setHeader (setHeader (setHeader handler
          ("X-RateLimit-Limit") ("1000")) ("X-RateLimit-Remaining") ("1000"))
          ("X-RateLimit-Window") (toString rlim_window))
          ("X-RateLimit-Remaining")
        = some ("1000")
    ∧ getHeader (setHeader (setHeader (setHeader handler
          ("X-RateLimit-Limit") ("1000")) ("X-RateLimit-Remaining") ("1000"))
          ("X-RateLimit-Window") (toString rlim_window)) ("X-RateLimit-Window")
        = some ("900") := by
  refine ⟨rfl, fun k => rfl, ?_, ?_, ?_⟩
  · rw [getHeader_setHeader_ne _ _ _ _ (by decide),
      getHeader_setHeader_ne _ _ _ _ (by decide), getHeader_setHeader_same]
  · rw [getHeader_setHeader_ne _ _ _ _ (by decide), getHeader_setHeader_same]
  · rw [getHeader_setHeader_same]
    rfl

/-- Claim C8: immediately after any execution of the admission script (with
the window argument the middleware passes), the TTL stored on the identity's
key is exactly the window length, 900 seconds; the same holds through an
authorized middleware call. -/
theorem claim_C8 (st : RedisState) (access_key : String) (now : Rat)
    (quota : Int) (handler : Response) :
    ((rlim_script access_key now (rlim_window : Rat) st).2.ttl access_key
        = some ((rlim_window : Nat) : Rat))
    ∧ ((rlim_middleware st now true quota access_key false handler).2.ttl
          access_key = some ((rlim_window : Nat) : Rat))
    ∧ ((rlim_window : Nat) : Rat) = 900 := by
  refine ⟨rlim_script_ttl _ _ _ _, ?_, rlim_window_rat⟩
  rw [rlim_middleware_auth]
  exact rlim_script_ttl _ _ _ _

/-- Claim C10: when the awaited script call yields a null result on an
authorized request, the middleware never raises RateLimitExceeded: the
downstream response is returned with Remaining equal to the full quota. -/
theorem claim_C10 (st : RedisState) (now : Rat) (quota : Int)
    (access_key : String) (handler : Response) :
    ((rlim_middleware st now true quota access_key true handler).1
        = MWOutcome.ok (setRLHeaders handler quota quota))
    ∧ getHeader (setRLHeaders handler quota quota) ("X-RateLimit-Remaining")
        = some (toString quota)
    ∧ getHeader (setRLHeaders handler quota quota) ("X-RateLimit-Limit")
        = some (toString quota) := by
  have hout : (rlim_middleware st now true quota access_key true handler).1
      = MWOutcome.ok (setRLHeaders handler quota quota) := by
    simp [rlim_middleware]
  exact ⟨hout, getHeader_setRLHeaders_remaining _ _ _,
    getHeader_setRLHeaders_limit _ _ _⟩

/-- Claim C2: for an identity issuing successive admission checks within a
single window (fresh key, no entry aged out because every earlier timestamp
lies inside the trailing window of every later call, and fewer calls than the
counter's cycle so no member collision), the value returned by the k-th call
(1-indexed) equals k. -/
theorem claim_C2 (access_key : String) (t : Nat → Rat) (st : RedisState)
    (Nn : Nat) (h0 : st.windows access_key = [])
    (hc : st.requestId < counterLimit) (hN : Nn ≤ counterLimit - 1)
    (hwin : ∀ i j : Nat, i < j → j < Nn → t j - 900 < t i) :
    ∀ k, k < Nn → scriptRet access_key t st k = k + 1 :=
  scriptRet_run access_key t st Nn h0 hc hN hwin

/-- Witness for claim C2: three calls at a constant timestamp on a fresh
store return rolling counts 1, 2, 3. -/
theorem claim_C2_witness :
    (emptySt.windows key0 = [] ∧ emptySt.requestId < counterLimit
      ∧ 3 ≤ counterLimit - 1
      ∧ (∀ i j : Nat, i < j → j < 3 → tConst j - 900 < tConst i))
    ∧ scriptRet key0 tConst emptySt 0 = 1
    ∧ scriptRet key0 tConst emptySt 1 = 2
    ∧ scriptRet key0 tConst emptySt 2 = 3 := by
  have hN := counterLimit_three_le
  have hbig : (3 : Nat) ≤ counterLimit - 1 := by
    have : (10 : Nat) ^ 12 = counterLimit := rfl
    norm_num [← this]
  have hc : emptySt.requestId < counterLimit := by
    show (0 : Nat) < counterLimit
    omega
  have hwin : ∀ i j : Nat, i < j → j < 3 → tConst j - 900 < tConst i := by
    intro i j _ _
    show (1000 : Rat) - 900 < 1000
    norm_num
  exact ⟨⟨rfl, hc, hbig, hwin⟩,
    claim_C2 key0 tConst emptySt 3 rfl hc hbig hwin 0 (by omega),
    claim_C2 key0 tConst emptySt 3 rfl hc hbig hwin 1 (by omega),
    claim_C2 key0 tConst emptySt 3 rfl hc hbig hwin 2 (by omega)⟩

/-- Claim C4: an authorized request admitted with rolling count c ≤ quota is
answered with headers Limit = quota, Remaining = quota − c and Window = 900,
and Remaining is never negative. -/
theorem claim_C4 (st : RedisState) (now : Rat) (quota : Int)
    (access_key : String) (handler : Response)
    (hc : ((rlim_script access_key now (rlim_window : Rat) st).1 : Int)
      ≤ quota) :
    ∃ resp, (rlim_middleware st now true quota access_key false handler).1
        = MWOutcome.ok resp
      ∧ getHeader resp ("X-RateLimit-Limit") = some (toString quota)
      ∧ getHeader resp ("X-RateLimit-Remaining")
          = some (toString (quota
              - ((rlim_script access_key now (rlim_window : Rat) st).1 : Int)))
      ∧ getHeader resp ("X-RateLimit-Window") = some ("900")
      ∧ 0 ≤ quota
          - ((rlim_script access_key now (rlim_window : Rat) st).1 : Int) := by
  refine ⟨setRLHeaders handler quota
    (quota - ((rlim_script access_key now (rlim_window : Rat) st).1 : Int)),
    ?_, getHeader_setRLHeaders_limit _ _ _,
    getHeader_setRLHeaders_remaining _ _ _,
    getHeader_setRLHeaders_window _ _ _, by omega⟩
  rw [rlim_middleware_auth]
  simp only [not_lt.mpr hc, if_false, if_neg (not_lt.mpr hc)]

/-- Witness for claim C4: the first call on a fresh store with quota 5 has
rolling count 1 ≤ 5 and the response carries Limit 5, Remaining 4,
Window 900. -/
theorem claim_C4_witness :
    (((rlim_script key0 1000 (rlim_window : Rat) emptySt).1 : Int) ≤ 5)
    ∧ ∃ resp, (rlim_middleware emptySt 1000 true 5 key0 false handler0).1
        = MWOutcome.ok resp
      ∧ getHeader resp ("X-RateLimit-Limit") = some (toString (5 : Int))
      ∧ getHeader resp ("X-RateLimit-Remaining")
          = some (toString ((5 : Int)
              - ((rlim_script key0 1000 (rlim_window : Rat) emptySt).1 : Int)))
      ∧ getHeader resp ("X-RateLimit-Window") = some ("900")
      ∧ 0 ≤ (5 : Int)
          - ((rlim_script key0 1000 (rlim_window : Rat) emptySt).1 : Int) := by
  have hcnt : (rlim_script key0 1000 (rlim_window : Rat) emptySt).1 = 1 := rfl
  have hc : ((rlim_script key0 1000 (rlim_window : Rat) emptySt).1 : Int)
      ≤ 5 := by
    rw [hcnt]
    norm_num
  exact ⟨hc, claim_C4 emptySt 1000 5 key0 handler0 hc⟩

/-- Claim C3: on every admission check (entries carrying nonnegative scores,
as every score is a quantized wall-clock time), entries scored ≤ now − window
are gone from the stored window, every stored entry is strictly inside the
trailing window, the returned count is the cardinality of the stored window
(so it never counts pruned entries), and on the very first admission for an
identity the operation returns 1 with the singleton window. -/
theorem claim_C3 (st : RedisState) (access_key : String) (now : Rat)
    (hpos : ∀ e ∈ st.windows access_key, (0 : Rat) ≤ e.1) :
    (∀ e ∈ st.windows access_key, e.1 ≤ now - 900 →
        e ∉ (rlim_script access_key now (rlim_window : Rat) st).2.windows
          access_key)
    ∧ (∀ e ∈ (rlim_script access_key now (rlim_window : Rat) st).2.windows
          access_key, now - 900 < e.1)
    ∧ ((rlim_script access_key now (rlim_window : Rat) st).1
        = ((rlim_script access_key now (rlim_window : Rat) st).2.windows
            access_key).length)
    ∧ (st.windows access_key = [] →
        (rlim_script access_key now (rlim_window : Rat) st).1 = 1
        ∧ (rlim_script access_key now (rlim_window : Rat) st).2.windows
            access_key = [(now, st.requestId + 1)]) := by
  simp only [rlim_window_rat]
  have hw := rlim_script_windows access_key now 900 st
  refine ⟨?_, ?_, by simp [rlim_script], ?_⟩
  · intro e he hle
    rw [hw]
    intro hmem
    rcases List.mem_append.mp hmem with hmem1 | hmem2
    · have hmem1' := List.mem_of_mem_filter hmem1
      by_cases hE : (st.windows access_key).isEmpty
      · rw [if_pos hE] at hmem1'
        rw [List.isEmpty_iff] at hE
        rw [hE] at hmem1'
        exact absurd hmem1' (List.not_mem_nil e)
      · rw [if_neg hE] at hmem1'
        have hp := List.of_mem_filter hmem1'
        have hm0 := List.mem_of_mem_filter hmem1'
        simp only [decide_eq_true_eq] at hp
        exact hp ⟨hpos e hm0, hle⟩
    · simp only [List.mem_singleton] at hmem2
      rw [hmem2] at hle
      simp only at hle
      linarith
  · intro e
    rw [hw]
    intro hmem
    rcases List.mem_append.mp hmem with hmem1 | hmem2
    · have hmem1' := List.mem_of_mem_filter hmem1
      by_cases hE : (st.windows access_key).isEmpty
      · rw [if_pos hE] at hmem1'
        rw [List.isEmpty_iff] at hE
        rw [hE] at hmem1'
        exact absurd hmem1' (List.not_mem_nil e)
      · rw [if_neg hE] at hmem1'
        have hp := List.of_mem_filter hmem1'
        have hm0 := List.mem_of_mem_filter hmem1'
        simp only [decide_eq_true_eq, not_and, not_le] at hp
        exact hp (hpos e hm0)
    · simp only [List.mem_singleton] at hmem2
      rw [hmem2]
      simp only
      linarith
  · intro hE
    constructor
    · simp [rlim_script, hE]
    · simp [rlim_script, hE]

/-- Witness for claim C3: a store holding one stale entry scored 50 for the
identity; at now = 1000 the stale entry (50 ≤ 100) is pruned, every surviving
entry is in-window, the count matches the stored cardinality, and on the
fresh-store side the first admission returns 1. -/
theorem claim_C3_witness :
    (∀ e ∈ stOld.windows key0, (0 : Rat) ≤ e.1)
    ∧ ((∀ e ∈ stOld.windows key0, e.1 ≤ 1000 - 900 →
        e ∉ (rlim_script key0 1000 (rlim_window : Rat) stOld).2.windows key0)
    ∧ (∀ e ∈ (rlim_script key0 1000 (rlim_window : Rat) stOld).2.windows key0,
        (1000 : Rat) - 900 < e.1)
    ∧ ((rlim_script key0 1000 (rlim_window : Rat) stOld).1
        = ((rlim_script key0 1000 (rlim_window : Rat) stOld).2.windows
            key0).length)
    ∧ (stOld.windows key0 = [] →
        (rlim_script key0 1000 (rlim_window : Rat) stOld).1 = 1
        ∧ (rlim_script key0 1000 (rlim_window : Rat) stOld).2.windows key0
            = [(1000, stOld.requestId + 1)])) := by
  have hpos : ∀ e ∈ stOld.windows key0, (0 : Rat) ≤ e.1 := by
    intro e he
    simp only [stOld, List.mem_singleton] at he
    rw [he]
    norm_num
  exact ⟨hpos, claim_C3 stOld key0 1000 hpos⟩

/-- Claim C9: every authorized admission check mutates the window even when
the request is rejected: the script unconditionally inserts the new entry and
refreshes the TTL, the rejecting middleware keeps the post-script store, and
a later check inside the window counts the rejected request's entry (its
rolling count is at least 2). -/
theorem claim_C9 (st : RedisState) (access_key : String) (now now' : Rat)
    (quota : Int) (handler : Response) :
    ((now, st.requestId + 1)
        ∈ (rlim_script access_key now (rlim_window : Rat) st).2.windows
          access_key)
    ∧ ((rlim_script access_key now (rlim_window : Rat) st).2.ttl access_key
        = some ((rlim_window : Nat) : Rat))
    ∧ (quota < ((rlim_script access_key now (rlim_window : Rat) st).1 : Int) →
        rlim_middleware st now true quota access_key false handler
          = (MWOutcome.rateLimitExceeded,
             (rlim_script access_key now (rlim_window : Rat) st).2))
    ∧ (now' - 900 < now →
        2 ≤ (rlim_script access_key now' (rlim_window : Rat)
              (rlim_script access_key now (rlim_window : Rat) st).2).1) := by
  have hN := counterLimit_three_le
  refine ⟨rlim_script_inserts _ _ _ _, rlim_script_ttl _ _ _ _, ?_, ?_⟩
  · intro hq
    rw [rlim_middleware_auth, if_pos hq]
  · intro hlt
    simp only [rlim_window_rat]
    have hmem : (now, st.requestId + 1)
        ∈ (rlim_script access_key now 900 st).2.windows access_key :=
      rlim_script_inserts _ _ _ _
    have hid : (rlim_script access_key now 900 st).2.requestId
        = counterStep st.requestId := rlim_script_requestId _ _ _ _
    have hne : st.requestId + 1 ≠ counterStep st.requestId + 1 := by
      unfold counterStep
      split <;> omega
    have hlen : (rlim_script access_key now' 900
          (rlim_script access_key now 900 st).2).1
        = ((rlim_script access_key now' 900
            (rlim_script access_key now 900 st).2).2.windows
              access_key).length := by
      simp [rlim_script]
    rw [hlen, rlim_script_windows, List.length_append]
    have hE : ¬ ((rlim_script access_key now 900 st).2.windows
        access_key).isEmpty = true := by
      intro h
      rw [List.isEmpty_iff] at h
      rw [h] at hmem
      exact absurd hmem (List.not_mem_nil _)
    have hinF : (now, st.requestId + 1)
        ∈ ((if ((rlim_script access_key now 900 st).2.windows
              access_key).isEmpty
            then (rlim_script access_key now 900 st).2.windows access_key
            else ((rlim_script access_key now 900 st).2.windows
              access_key).filter
                (fun e => decide (¬ (0 ≤ e.1 ∧ e.1 ≤ now' - 900)))).filter
          (fun e => decide (e.2
            ≠ (rlim_script access_key now 900 st).2.requestId + 1))) := by
      rw [if_neg hE]
      apply List.mem_filter.mpr
      refine ⟨List.mem_filter.mpr ⟨hmem, ?_⟩, ?_⟩
      · simp only [decide_eq_true_eq]
        intro hcon
        have h2 : now ≤ now' - 900 := hcon.2
        linarith
      · simp only [decide_eq_true_eq, hid]
        exact hne
    have hpos := List.length_pos.mpr (List.ne_nil_of_mem hinF)
    simp only [List.length_singleton]
    omega

/-- Witness for claim C9: on a fresh store with quota 0, the first call at
now = 1000 has count 1 > 0 so the middleware rejects, yet a second call at
the same instant returns count 2. -/
theorem claim_C9_witness :
    ((0 : Int) < ((rlim_script key0 1000 (rlim_window : Rat) emptySt).1 : Int)
      ∧ (1000 : Rat) - 900 < 1000)
    ∧ (rlim_middleware emptySt 1000 true 0 key0 false handler0
        = (MWOutcome.rateLimitExceeded,
           (rlim_script key0 1000 (rlim_window : Rat) emptySt).2))
    ∧ 2 ≤ (rlim_script key0 1000 (rlim_window : Rat)
            (rlim_script key0 1000 (rlim_window : Rat) emptySt).2).1 := by
  have hcnt : (rlim_script key0 1000 (rlim_window : Rat) emptySt).1 = 1 := rfl
  have hq : (0 : Int)
      < ((rlim_script key0 1000 (rlim_window : Rat) emptySt).1 : Int) := by
    rw [hcnt]
    norm_num
  have hlt : (1000 : Rat) - 900 < 1000 := by norm_num
  exact ⟨⟨hq, hlt⟩,
    (claim_C9 emptySt key0 1000 1000 0 handler0).2.2.1 hq,
    (claim_C9 emptySt key0 1000 1000 0 handler0).2.2.2 hlt⟩

/-- Claim C1: an authorized request raises RateLimitExceeded iff the rolling
count returned by the admission script exceeds the quota; on rejection the
result is identical for every downstream handler (the handler is never
invoked); and for an identity issuing successive calls within one window,
calls 1..Q are admitted while call Q+1 is rejected. -/
theorem claim_C1 :
    (∀ (st : RedisState) (now : Rat) (quota : Int) (access_key : String)
        (handler : Response),
      (rlim_middleware st now true quota access_key false handler).1
          = MWOutcome.rateLimitExceeded
        ↔ quota < ((rlim_script access_key now (rlim_window : Rat) st).1 : Int))
    ∧ (∀ (st : RedisState) (now : Rat) (quota : Int) (access_key : String),
        quota < ((rlim_script access_key now (rlim_window : Rat) st).1 : Int) →
        ∀ h₁ h₂ : Response,
          rlim_middleware st now true quota access_key false h₁
            = rlim_middleware st now true quota access_key false h₂)
    ∧ (∀ (access_key : String) (t : Nat → Rat) (st : RedisState) (Q : Nat)
          (handler : Response),
        st.windows access_key = [] →
        st.requestId < counterLimit →
        Q + 1 ≤ counterLimit - 1 →
        (∀ i j : Nat, i < j → j < Q + 1 → t j - 900 < t i) →
        (∀ k, k < Q →
          mwOut access_key (Q : Int) t handler st k
            = MWOutcome.ok (setRLHeaders handler (Q : Int)
                ((Q : Int) - ((k : Int) + 1))))
        ∧ mwOut access_key (Q : Int) t handler st Q
            = MWOutcome.rateLimitExceeded) := by
  refine ⟨?_, ?_, ?_⟩
  · intro st now quota access_key handler
    rw [rlim_middleware_auth]
    by_cases hq : quota
        < ((rlim_script access_key now (rlim_window : Rat) st).1 : Int)
    · simp [hq]
    · simp [hq]
  · intro st now quota access_key hq h₁ h₂
    rw [rlim_middleware_auth, rlim_middleware_auth, if_pos hq, if_pos hq]
  · intro access_key t st Q handler h0 hc hQ hwin
    have hrun := scriptRet_run access_key t st (Q + 1) h0 hc hQ hwin
    constructor
    · intro k hk
      rw [mwOut_eq, hrun k (by omega), if_neg (by push_cast; omega)]
      norm_cast
    · rw [mwOut_eq, hrun Q (by omega), if_pos (by push_cast; omega)]

/-- Witness for claim C1's scenario clause with quota 2 on a fresh store:
calls 1 and 2 are admitted with Remaining 1 and 0, call 3 is rejected. -/
theorem claim_C1_witness :
    (emptySt.windows key0 = [] ∧ emptySt.requestId < counterLimit
      ∧ 2 + 1 ≤ counterLimit - 1
      ∧ (∀ i j : Nat, i < j → j < 2 + 1 → tConst j - 900 < tConst i))
    ∧ (∀ k, k < 2 →
        mwOut key0 ((2 : Nat) : Int) tConst handler0 emptySt k
          = MWOutcome.ok (setRLHeaders handler0 ((2 : Nat) : Int)
              (((2 : Nat) : Int) - ((k : Int) + 1))))
    ∧ mwOut key0 ((2 : Nat) : Int) tConst handler0 emptySt 2
        = MWOutcome.rateLimitExceeded := by
  have hc : emptySt.requestId < counterLimit := by
    have := counterLimit_three_le
    show (0 : Nat) < counterLimit
    omega
  have hbig : 2 + 1 ≤ counterLimit - 1 := by
    have h12 : (10 : Nat) ^ 12 = counterLimit := rfl
    norm_num [← h12]
  have hwin : ∀ i j : Nat, i < j → j < 2 + 1 → tConst j - 900 < tConst i := by
    intro i j _ _
    show (1000 : Rat) - 900 < 1000
    norm_num
  exact ⟨⟨rfl, hc, hbig, hwin⟩,
    claim_C1.2.2 key0 tConst emptySt 2 handler0 rfl hc hbig hwin⟩

end RateLimit
